import Mathlib

/-!
A shallow embedding of the Lemmy content harvester
(`src/lemmyw04b6eb792ca4a1/__init__.py`) and proofs about it.

Modelling conventions:
* Timestamps are integral seconds; `datetime.now(timezone.utc) - published <
  timedelta(seconds=x)` becomes `now - published < x` over `Int`.
* JSON ids are opaque and modelled as `String`; the Python code stores the raw
  id in the `id_found` dict and `str(id)` in the emitted record, which coincide
  for opaque string ids.
* The outcome of one HTTP call is either a response with a status and parsed body,
  or a timeout.  A Python exception that escapes a function is modelled as
  `Except.error ()`.
* The external collaborators (lxml `fromstring(..).text_content()`,
  `wordsegment.segment`) and the network responses are parameters of the
  model, collected in `Env`.  the randomness of `random.sample` is an index tape;
  `random.choice(sorts)` only changes the request URL and is folded into the
  community response stored in `Env`.
-/

namespace Lemmy

/-- One community view from `data["communities"]`: the code reads
`v["community"]["name"]` and `v["community"]["title"]`. -/
structure Community where
  name : String
  title : String
deriving DecidableEq, Repr

/-- One post from `posts["posts"]`, after `_post["post"]`: fields `id`,
`ap_id`, `creator_id`, `published`, and the optional `body` and `name`. -/
structure Post where
  id : String
  apId : String
  creatorId : String
  published : Int
  body : Option String
  name : Option String
deriving DecidableEq, Repr

/-- One comment from `data["comments"]`, after `comment["comment"]`. -/
structure Comment where
  id : String
  content : String
  published : Int
  apId : String
  postId : String
  creatorId : String
deriving DecidableEq, Repr

/-- The emitted record (`exorde_data.Item`).  `externalParentId` is present
exactly on comment-derived records. -/
structure Item where
  content : String
  createdAt : Int
  domain : String
  title : String
  url : String
  externalId : String
  externalParentId : Option String
deriving DecidableEq, Repr

/-- Outcome of one HTTP GET: a response with a status code and a parsed JSON
body, or a timeout (the `aiohttp` timeout raises an exception). -/
inductive HttpOutcome (β : Type) where
  | success (status : Nat) (body : β)
  | timeout
deriving DecidableEq

/-- The body of `post/list`: `posts.get("posts")`, absent when the key
`"posts"` is missing (`if posts and "posts" in posts`). -/
structure PostsBody where
  posts : Option (List Post)
deriving DecidableEq

/-- `fetch_communities`: on status 200 returns `data["communities"]`, on any
other status returns `[]`.  The `try` has a `finally` but no `except`, so a
timeout exception propagates to the caller: modelled as `Except.error ()`. -/
def fetch_communities (resp : HttpOutcome (List Community)) :
    Except Unit (List Community) :=
  match resp with
  | .success status body => if status = 200 then .ok body else .ok []
  | .timeout => .error ()

/-- `fetch_new_posts_from_community`: on status 200 returns the parsed JSON,
on any other status returns `None`.  A timeout propagates (no `except`). -/
def fetch_new_posts_from_community (resp : HttpOutcome PostsBody) :
    Except Unit (Option PostsBody) :=
  match resp with
  | .success status body => if status = 200 then .ok (some body) else .ok none
  | .timeout => .error ()

/-- `fetch_comments_for_post`: on status 200 returns the comments whose age
`now - published` is strictly below `max_oldness`, on any other status
returns `None`.  A timeout propagates (no `except`). -/
def fetch_comments_for_post (now maxOldness : Int)
    (resp : HttpOutcome (List Comment)) : Except Unit (Option (List Comment)) :=
  match resp with
  | .success status body =>
      if status = 200 then
        .ok (some (body.filter (fun c => now - c.published < maxOldness)))
      else .ok none
  | .timeout => .error ()

def DEFAULT_MIN_POST_LENGTH : Int := 10
def DEFAULT_MAXIMUM_ITEMS : Int := 100
def DEFAULT_OLDNESS_SECONDS : Int := 3600

/-- The `parameters` argument of `query`: `None`, a non-dict value, or a dict
modelled as an association list. -/
inductive ParamsInput where
  | pyNone
  | nonDict
  | dict (entries : List (String × Int))
deriving DecidableEq

/-- `parameters.get(key, default)`. -/
def lookupParam (entries : List (String × Int)) (key : String) (dflt : Int) :
    Int :=
  match entries.find? (fun p => p.1 = key) with
  | some p => p.2
  | none => dflt

/-- `read_parameters`: when `parameters` is a truthy dict each key is read
with its default.  Otherwise the `else` branch assigns only
`min_post_length`, so the `return` raises `UnboundLocalError` on
`max_oldness_seconds`: modelled as `Except.error ()`. -/
def read_parameters (parameters : ParamsInput) :
    Except Unit (Int × Int × Int) :=
  match parameters with
  | .dict entries =>
      if entries = [] then .error ()
      else
        .ok (lookupParam entries "max_oldness_seconds" DEFAULT_OLDNESS_SECONDS,
             lookupParam entries "maximum_items_to_collect" DEFAULT_MAXIMUM_ITEMS,
             lookupParam entries "min_post_length" DEFAULT_MIN_POST_LENGTH)
  | _ => .error ()

/-- One left-to-right pass of `escape_character_pattern.sub("", text)` with
`escape_character_pattern = re.compile(r"\\.")`: a backslash followed by any
character other than a newline is removed (`.` does not match `\n`), scanning
non-overlapping matches from the left exactly as `re.sub` does. -/
def removeEscapes : List Char → List Char
  | [] => []
  | [c] => [c]
  | c1 :: c2 :: rest =>
      if c1 = '\\' ∧ c2 ≠ '\n' then removeEscapes rest
      else c1 :: removeEscapes (c2 :: rest)

/-- `sanitize_text`: substitutes every match of `escape_character_pattern`
with the empty string. -/
def sanitize_text (text : String) : String :=
  String.mk (removeEscapes text.data)

/-- The input contains no match of `escape_character_pattern`, i.e. no
backslash followed by a non-newline character. -/
def noEsc : List Char → Prop
  | [] => True
  | [_] => True
  | c1 :: c2 :: rest => ¬(c1 = '\\' ∧ c2 ≠ '\n') ∧ noEsc (c2 :: rest)

def LEMMY_NB_COMMUNITIES_TO_BROWSE : Nat := 10
def LEMMY_DEFAULT_TOP_COMMUNITIES : Nat := 10

/-- `l` with the element at index `n` removed. -/
def removeNth (l : List α) (n : Nat) : List α := l.take n ++ l.drop (n + 1)

/-- Draw `k` elements without replacement, the randomness being an index
tape. -/
def sampleAux : List α → Nat → List Nat → List α
  | _, 0, _ => []
  | l, k + 1, tape =>
      let t := tape.headD 0
      match l.get? (t % l.length) with
      | some x => x :: sampleAux (removeNth l (t % l.length)) k tape.tail
      | none => []

/-- `random.sample(l, k)`: raises `ValueError` when the sample size exceeds
the population size, otherwise returns `k` distinct elements. -/
def randomSample (l : List α) (k : Nat) (tape : List Nat) :
    Except Unit (List α) :=
  if k ≤ l.length then .ok (sampleAux l k tape) else .error ()

/-- Insertion into a Python dict built by a comprehension: an existing key
keeps its position and takes the new value, a new key is appended. -/
def dictInsert (m : List (String × Community)) (key : String) (v : Community) :
    List (String × Community) :=
  if m.any (fun p => p.1 = key) then
    m.map (fun p => if p.1 = key then (key, v) else p)
  else m ++ [(key, v)]

/-- `list({v["community"]["name"]: v for v in selected}.values())`:
deduplicate by community name, last value wins, first-occurrence order. -/
def dedupByName (l : List Community) : List Community :=
  (l.foldl (fun m c => dictInsert m c.name c) []).map Prod.snd

/-- Lines 217-228 of `query`: sample `LEMMY_NB_COMMUNITIES_TO_BROWSE`
communities, add a sample of `LEMMY_DEFAULT_TOP_COMMUNITIES` from the top-10
prefix when the list is longer than 10, and deduplicate by name.  An error is
a `ValueError` escaping from `random.sample`. -/
def selectCommunities (communities : List Community) (tape1 tape2 : List Nat) :
    Except Unit (List Community) :=
  match randomSample communities LEMMY_NB_COMMUNITIES_TO_BROWSE tape1 with
  | .error e => .error e
  | .ok sel1 =>
      if LEMMY_DEFAULT_TOP_COMMUNITIES < communities.length then
        match randomSample (communities.take 10)
            LEMMY_DEFAULT_TOP_COMMUNITIES tape2 with
        | .error e => .error e
        | .ok sel2 => .ok (dedupByName (sel1 ++ sel2))
      else .ok (dedupByName sel1)

/-- The environment of one invocation: the external collaborators and the
network responses observed in that run. -/
structure Env where
  now : Int
  communitiesResp : HttpOutcome (List Community)
  sampleTape1 : List Nat
  sampleTape2 : List Nat
  postsResp : String → HttpOutcome PostsBody
  commentsResp : String → HttpOutcome (List Comment)
  segment : String → List String
  textContent : String → String

/-- The per-invocation session state: `yielded_items` and the keys of
`id_found`. -/
structure St where
  count : Nat
  idFound : List String
deriving DecidableEq

/-- How an inner loop terminated: normally, by the budget `break`, or by an
exception that unwinds to the invocation-level `except`. -/
inductive Ctl where
  | normal
  | budget
  | exn
deriving DecidableEq

/-- `post_title`: `post["name"]` when present, otherwise the initial `""`. -/
def postTitleOf (p : Post) : String :=
  match p.name with
  | some n => n
  | none => ""

/-- `post_content` before cleaning: the segmented community name, then
`". " + body` when a body exists, then the title when a name exists. -/
def postContentRaw (segName : String) (p : Post) : String :=
  (segName ++ (match p.body with | some b => ". " ++ b | none => "")) ++
    (match p.name with | some n => n | none => "")

/-- The post-derived `Item` of lines 276-284. -/
def mkPostItem (env : Env) (segName : String) (p : Post) : Item where
  content := sanitize_text (env.textContent (postContentRaw segName p))
  createdAt := p.published
  domain := "lemmy.world"
  title := postTitleOf p
  url := p.apId
  externalId := p.id
  externalParentId := none

/-- The comment-derived `Item` of lines 315-326. -/
def mkCommentItem (postTitle : String) (c : Comment) : Item where
  content := sanitize_text c.content
  createdAt := c.published
  domain := "lemmy.world"
  title := postTitle
  url := c.apId
  externalId := c.id
  externalParentId := some c.postId

/-- The comment loop of lines 301-338: for each comment, build the item; when
its id is unseen, `break` on an exhausted budget, otherwise count it, mark it
seen and yield it.  The boolean reports whether the budget `break` fired. -/
def processComments (maxItems : Int) (postTitle : String) :
    St → List Comment → List Item × St × Bool
  | st, [] => ([], st, false)
  | st, c :: rest =>
      if c.id ∈ st.idFound then processComments maxItems postTitle st rest
      else if maxItems ≤ (st.count : Int) then ([], st, true)
      else
        let r := processComments maxItems postTitle
          ⟨st.count + 1, c.id :: st.idFound⟩ rest
        (mkCommentItem postTitle c :: r.1, r.2.1, r.2.2)

/-- The `if comments:` guard of line 300 followed by the comment loop: an
empty list is falsy and skips the loop. -/
def commentsPass (maxItems : Int) (postTitle : String) (st : St)
    (copt : Option (List Comment)) : List Item × St × Bool :=
  match copt with
  | some cs =>
      if cs = [] then ([], st, false) else processComments maxItems postTitle st cs
  | none => ([], st, false)

/-- The post loop of lines 254-340.  A fresh unseen post either `break`s on
an exhausted budget (skipping its comments) or is emitted; in every other
case the loop proceeds to the comment fetch, whose timeout unwinds as an
exception.  After the comments, line 339 `break`s when the budget is
exhausted. -/
def processPosts (env : Env) (maxOld maxItems : Int) (segName : String) :
    St → List Post → List Item × St × Ctl
  | st, [] => ([], st, Ctl.normal)
  | st, p :: rest =>
      if env.now - p.published < maxOld ∧ p.id ∉ st.idFound then
        if maxItems ≤ (st.count : Int) then ([], st, Ctl.budget)
        else
          let st1 : St := ⟨st.count + 1, p.id :: st.idFound⟩
          match fetch_comments_for_post env.now maxOld (env.commentsResp p.id) with
          | .error _ => ([mkPostItem env segName p], st1, Ctl.exn)
          | .ok copt =>
              let cr := commentsPass maxItems (postTitleOf p) st1 copt
              if maxItems ≤ (cr.2.1.count : Int) then
                (mkPostItem env segName p :: cr.1, cr.2.1, Ctl.budget)
              else
                let r := processPosts env maxOld maxItems segName cr.2.1 rest
                (mkPostItem env segName p :: (cr.1 ++ r.1), r.2.1, r.2.2)
      else
        match fetch_comments_for_post env.now maxOld (env.commentsResp p.id) with
        | .error _ => ([], st, Ctl.exn)
        | .ok copt =>
            let cr := commentsPass maxItems (postTitleOf p) st copt
            if maxItems ≤ (cr.2.1.count : Int) then (cr.1, cr.2.1, Ctl.budget)
            else
              let r := processPosts env maxOld maxItems segName cr.2.1 rest
              (cr.1 ++ r.1, r.2.1, r.2.2)

/-- The community loop of lines 243-342: fetch the posts of the community (a
timeout unwinds as an exception), run the post loop when
`posts and "posts" in posts`, and `break` at line 341 when the budget is
exhausted. -/
def processCommunities (env : Env) (maxOld maxItems : Int) :
    St → List Community → List Item × St × Ctl
  | st, [] => ([], st, Ctl.normal)
  | st, comm :: rest =>
      match fetch_new_posts_from_community (env.postsResp comm.name) with
      | .error _ => ([], st, Ctl.exn)
      | .ok postsOpt =>
          let segName := String.intercalate " " (env.segment comm.name)
          let pr : List Item × St × Ctl :=
            match postsOpt with
            | some body =>
                match body.posts with
                | some plist => processPosts env maxOld maxItems segName st plist
                | none => ([], st, Ctl.normal)
            | none => ([], st, Ctl.normal)
          if pr.2.2 = Ctl.exn then (pr.1, pr.2.1, Ctl.exn)
          else if maxItems ≤ (pr.2.1.count : Int) then (pr.1, pr.2.1, Ctl.budget)
          else
            let r := processCommunities env maxOld maxItems pr.2.1 rest
            (pr.1 ++ r.1, r.2.1, r.2.2)

/-- The body of `query` after `read_parameters`: the community fetch at line
213 sits outside the `try`, so its exception propagates; everything from the
sampling on is inside the `try`, whose `except` swallows any exception and
ends the generator with the records already yielded. -/
def queryBody (env : Env) (maxOld maxItems : Int) : Except Unit (List Item) :=
  match fetch_communities env.communitiesResp with
  | .error e => .error e
  | .ok communities =>
      if communities = [] then .ok []
      else
        match selectCommunities communities env.sampleTape1 env.sampleTape2 with
        | .error _ => .ok []
        | .ok selected =>
            .ok (processCommunities env maxOld maxItems ⟨0, []⟩ selected).1

/-- `query`: resolve the parameters (an `UnboundLocalError` propagates), then
run the body.  `min_post_length` is bound but never used. -/
def query (parameters : ParamsInput) (env : Env) : Except Unit (List Item) :=
  match read_parameters parameters with
  | .error e => .error e
  | .ok (maxOld, maxItems, _minLen) => queryBody env maxOld maxItems

/-- `True` exactly when the invocation ended without propagating an
exception. -/
def isOkResult (r : Except Unit (List Item)) : Bool :=
  match r with
  | .ok _ => true
  | .error _ => false

/-- A community view fixture. -/
def mkComm (n : String) : Community := ⟨n, n⟩

/-- A ten-entry community list (the first draw needs at least 10). -/
def tenCommunities : List Community :=
  [mkComm "c0", mkComm "c1", mkComm "c2", mkComm "c3", mkComm "c4",
   mkComm "c5", mkComm "c6", mkComm "c7", mkComm "c8", mkComm "c9"]

/-- A concrete fresh post living in community `c0`. -/
def goodPost : Post where
  id := "p1"
  apId := "http://u1"
  creatorId := "a1"
  published := 990
  body := some "hello"
  name := some "Nice Title"

/-- An environment whose run emits exactly one post-derived record. -/
def goodEnv : Env where
  now := 1000
  communitiesResp := .success 200 tenCommunities
  sampleTape1 := []
  sampleTape2 := []
  postsResp := fun n =>
    if n = "c0" then .success 200 ⟨some [goodPost]⟩ else .success 200 ⟨none⟩
  commentsResp := fun _ => .success 200 []
  segment := fun s => [s]
  textContent := fun s => s

/-- The record the `goodEnv` run emits. -/
def goodItem : Item where
  content := "c0. helloNice Title"
  createdAt := 990
  domain := "lemmy.world"
  title := "Nice Title"
  url := "http://u1"
  externalId := "p1"
  externalParentId := none

/-- A five-entry community list: fewer than the sample size of 10. -/
def fiveCommunities : List Community :=
  [mkComm "a", mkComm "b", mkComm "d", mkComm "e", mkComm "f"]

/-- `goodEnv` but with only five communities in the listing response. -/
def fiveEnv : Env := { goodEnv with communitiesResp := .success 200 fiveCommunities }

/-- `goodEnv` but with a timeout on the initial community-list fetch. -/
def timeoutEnv : Env := { goodEnv with communitiesResp := .timeout }

/-- A comment published 5 seconds before time 0. -/
def freshComment : Comment where
  id := "m1"
  content := "hi"
  published := -5
  apId := "http://m1"
  postId := "p1"
  creatorId := "a2"

/-- The invariants every traversal segment preserves, from state `st` with
output `out` to state `st'`: the counter counts the emitted records, the
counter never passes the budget, an exhausted budget emits nothing and keeps
the state, emitted ids were unseen, are pairwise distinct and get recorded,
the seen set only grows, and post-derived records are fresh. -/
structure StepOK (now maxOld maxItems : Int) (st : St) (out : List Item)
    (st' : St) : Prop where
  count_eq : st'.count = st.count + out.length
  count_le : (st'.count : Int) ≤ max maxItems (st.count : Int)
  stop : maxItems ≤ (st.count : Int) → out = [] ∧ st' = st
  fresh_ids : ∀ r ∈ out, r.externalId ∉ st.idFound
  nodup : (out.map Item.externalId).Nodup
  mono : ∀ i ∈ st.idFound, i ∈ st'.idFound
  recorded : ∀ r ∈ out, r.externalId ∈ st'.idFound
  fresh_time : ∀ r ∈ out, r.externalParentId = none → now - r.createdAt < maxOld

theorem stepOK_refl (now maxOld maxItems : Int) (st : St) :
    StepOK now maxOld maxItems st [] st where
  count_eq := rfl
  count_le := le_max_right _ _
  stop := fun _ => ⟨rfl, rfl⟩
  fresh_ids := by simp
  nodup := by simp
  mono := fun _ h => h
  recorded := by simp
  fresh_time := by simp

theorem stepOK_trans {now maxOld maxItems : Int} {st st1 st2 : St}
    {o1 o2 : List Item}
    (h1 : StepOK now maxOld maxItems st o1 st1)
    (h2 : StepOK now maxOld maxItems st1 o2 st2) :
    StepOK now maxOld maxItems st (o1 ++ o2) st2 where
  count_eq := by rw [h2.count_eq, h1.count_eq, List.length_append]; omega
  count_le := by
    rcases le_max_iff.mp h2.count_le with h | h
    · exact le_max_iff.mpr (Or.inl h)
    · exact le_trans h h1.count_le
  stop := by
    intro hM
    obtain ⟨e1, e2⟩ := h1.stop hM
    obtain ⟨f1, f2⟩ := h2.stop (by rw [e2]; exact hM)
    refine ⟨?_, ?_⟩
    · rw [e1, f1]
      rfl
    · rw [f2, e2]
  fresh_ids := by
    intro r hr
    rcases List.mem_append.mp hr with h | h
    · exact h1.fresh_ids r h
    · intro hmem
      exact h2.fresh_ids r h (h1.mono _ hmem)
  nodup := by
    rw [List.map_append]
    refine List.Nodup.append h1.nodup h2.nodup ?_
    intro a ha hb
    rcases List.mem_map.mp ha with ⟨r, hr, hra⟩
    rcases List.mem_map.mp hb with ⟨s, hs, hsa⟩
    have hrec : a ∈ st1.idFound := hra ▸ h1.recorded r hr
    exact h2.fresh_ids s hs (hsa ▸ hrec)
  mono := fun i hi => h2.mono i (h1.mono i hi)
  recorded := by
    intro r hr
    rcases List.mem_append.mp hr with h | h
    · exact h2.mono _ (h1.recorded r h)
    · exact h2.recorded r h
  fresh_time := by
    intro r hr
    rcases List.mem_append.mp hr with h | h
    · exact h1.fresh_time r h
    · exact h2.fresh_time r h

theorem stepOK_emit {now maxOld maxItems : Int} {st : St} {r : Item}
    (hnew : r.externalId ∉ st.idFound) (hlt : (st.count : Int) < maxItems)
    (hfr : r.externalParentId = none → now - r.createdAt < maxOld) :
    StepOK now maxOld maxItems st [r]
      ⟨st.count + 1, r.externalId :: st.idFound⟩ where
  count_eq := rfl
  count_le := by
    refine le_max_iff.mpr (Or.inl ?_)
    push_cast
    omega
  stop := fun hM => absurd hlt (not_lt.mpr hM)
  fresh_ids := by
    intro s hs
    have h := List.mem_singleton.mp hs
    subst h
    exact hnew
  nodup := by simp
  mono := fun i hi => List.mem_cons_of_mem _ hi
  recorded := by
    intro s hs
    have h := List.mem_singleton.mp hs
    subst h
    exact List.mem_cons_self _ _
  fresh_time := by
    intro s hs
    have h := List.mem_singleton.mp hs
    subst h
    exact hfr

theorem processComments_stepOK (now maxOld maxItems : Int) (T : String) :
    ∀ (cs : List Comment) (st : St),
      StepOK now maxOld maxItems st (processComments maxItems T st cs).1
        (processComments maxItems T st cs).2.1
  | [], st => by simpa [processComments] using stepOK_refl now maxOld maxItems st
  | c :: rest, st => by
      by_cases hseen : c.id ∈ st.idFound
      · simp only [processComments, if_pos hseen]
        exact processComments_stepOK now maxOld maxItems T rest st
      · by_cases hbud : maxItems ≤ (st.count : Int)
        · simp only [processComments, if_neg hseen, if_pos hbud]
          exact stepOK_refl now maxOld maxItems st
        · simp only [processComments, if_neg hseen, if_neg hbud]
          have he : StepOK now maxOld maxItems st [mkCommentItem T c]
              ⟨st.count + 1, c.id :: st.idFound⟩ :=
            stepOK_emit (by simpa [mkCommentItem] using hseen)
              (lt_of_not_le hbud) (by intro h; simp [mkCommentItem] at h)
          have ht := stepOK_trans he
            (processComments_stepOK now maxOld maxItems T rest
              ⟨st.count + 1, c.id :: st.idFound⟩)
          simpa using ht

theorem commentsPass_stepOK (now maxOld maxItems : Int) (T : String) (st : St)
    (copt : Option (List Comment)) :
    StepOK now maxOld maxItems st (commentsPass maxItems T st copt).1
      (commentsPass maxItems T st copt).2.1 := by
  cases copt with
  | none => simpa [commentsPass] using stepOK_refl now maxOld maxItems st
  | some cs =>
      by_cases h : cs = []
      · simpa [commentsPass, h] using stepOK_refl now maxOld maxItems st
      · simpa [commentsPass, h] using
          processComments_stepOK now maxOld maxItems T cs st

theorem processPosts_stepOK (env : Env) (maxOld maxItems : Int) (s : String) :
    ∀ (ps : List Post) (st : St),
      StepOK env.now maxOld maxItems st
        (processPosts env maxOld maxItems s st ps).1
        (processPosts env maxOld maxItems s st ps).2.1
  | [], st => by
      simpa [processPosts] using stepOK_refl env.now maxOld maxItems st
  | p :: rest, st => by
      by_cases hful : env.now - p.published < maxOld ∧ p.id ∉ st.idFound
      · by_cases hbud : maxItems ≤ (st.count : Int)
        · simp only [processPosts, if_pos hful, if_pos hbud]
          exact stepOK_refl env.now maxOld maxItems st
        · simp only [processPosts, if_pos hful, if_neg hbud]
          have he : StepOK env.now maxOld maxItems st [mkPostItem env s p]
              ⟨st.count + 1, p.id :: st.idFound⟩ :=
            stepOK_emit (by simpa [mkPostItem] using hful.2)
              (lt_of_not_le hbud) (fun _ => by simpa [mkPostItem] using hful.1)
          cases hc : fetch_comments_for_post env.now maxOld
              (env.commentsResp p.id) with
          | error e =>
              simp only [hc]
              simpa using he
          | ok copt =>
              simp only [hc]
              have hcp := commentsPass_stepOK env.now maxOld maxItems
                (postTitleOf p) ⟨st.count + 1, p.id :: st.idFound⟩ copt
              by_cases hb2 : maxItems ≤
                  (((commentsPass maxItems (postTitleOf p)
                    ⟨st.count + 1, p.id :: st.idFound⟩ copt).2.1.count : Int))
              · simp only [if_pos hb2]
                simpa using stepOK_trans he hcp
              · simp only [if_neg hb2]
                have ht := stepOK_trans (stepOK_trans he hcp)
                  (processPosts_stepOK env maxOld maxItems s rest
                    (commentsPass maxItems (postTitleOf p)
                      ⟨st.count + 1, p.id :: st.idFound⟩ copt).2.1)
                simpa using ht
      · simp only [processPosts, if_neg hful]
        cases hc : fetch_comments_for_post env.now maxOld
            (env.commentsResp p.id) with
        | error e =>
            simp only [hc]
            exact stepOK_refl env.now maxOld maxItems st
        | ok copt =>
            simp only [hc]
            have hcp := commentsPass_stepOK env.now maxOld maxItems
              (postTitleOf p) st copt
            by_cases hb2 : maxItems ≤
                (((commentsPass maxItems (postTitleOf p) st copt).2.1.count : Int))
            · simp only [if_pos hb2]
              exact hcp
            · simp only [if_neg hb2]
              exact stepOK_trans hcp
                (processPosts_stepOK env maxOld maxItems s rest
                  (commentsPass maxItems (postTitleOf p) st copt).2.1)

theorem processCommunities_stepOK (env : Env) (maxOld maxItems : Int) :
    ∀ (cs : List Community) (st : St),
      StepOK env.now maxOld maxItems st
        (processCommunities env maxOld maxItems st cs).1
        (processCommunities env maxOld maxItems st cs).2.1
  | [], st => by
      simpa [processCommunities] using stepOK_refl env.now maxOld maxItems st
  | comm :: rest, st => by
      cases hf : fetch_new_posts_from_community (env.postsResp comm.name) with
      | error e =>
          simp only [processCommunities, hf]
          exact stepOK_refl env.now maxOld maxItems st
      | ok postsOpt =>
          simp only [processCommunities, hf]
          rcases hpr : (match postsOpt with
            | some body =>
                match body.posts with
                | some plist => processPosts env maxOld maxItems
                    (String.intercalate " " (env.segment comm.name)) st plist
                | none => ([], st, Ctl.normal)
            | none => ([], st, Ctl.normal)) with ⟨out1, st1, c1⟩
          have hok : StepOK env.now maxOld maxItems st out1 st1 := by
            rcases postsOpt with _ | body
            · simp only at hpr
              rw [Prod.mk.injEq, Prod.mk.injEq] at hpr
              rw [← hpr.1, ← hpr.2.1]
              exact stepOK_refl env.now maxOld maxItems st
            · rcases hb : body.posts with _ | plist
              · simp only [hb] at hpr
                rw [Prod.mk.injEq, Prod.mk.injEq] at hpr
                rw [← hpr.1, ← hpr.2.1]
                exact stepOK_refl env.now maxOld maxItems st
              · simp only [hb] at hpr
                have := processPosts_stepOK env maxOld maxItems
                  (String.intercalate " " (env.segment comm.name)) plist st
                rw [hpr] at this
                exact this
          rw [hpr]
          by_cases hex : c1 = Ctl.exn
          · simpa [hex] using hok
          · by_cases hb2 : maxItems ≤ (st1.count : Int)
            · simpa [hex, hb2] using hok
            · have ht := stepOK_trans hok
                (processCommunities_stepOK env maxOld maxItems rest st1)
              simpa [hex, hb2] using ht

theorem query_eq_of_read {params : ParamsInput} {a N l : Int} (env : Env)
    (hp : read_parameters params = .ok (a, N, l)) :
    query params env = queryBody env a N := by
  unfold query
  rw [hp]

theorem queryBody_ok_shape {env : Env} {a N : Int} {out : List Item}
    (hq : queryBody env a N = .ok out) :
    out = [] ∨ ∃ sel, out = (processCommunities env a N ⟨0, []⟩ sel).1 := by
  unfold queryBody at hq
  split at hq
  · cases hq
  · split at hq
    · exact Or.inl (Except.ok.inj hq).symm
    · split at hq
      · exact Or.inl (Except.ok.inj hq).symm
      · exact Or.inr ⟨_, (Except.ok.inj hq).symm⟩

theorem queryBody_ok_of_comms {env : Env} {a N : Int} {cs : List Community}
    (hc : fetch_communities env.communitiesResp = .ok cs) :
    ∃ out, queryBody env a N = .ok out := by
  simp only [queryBody, hc]
  by_cases hemp : cs = []
  · exact ⟨[], by simp [hemp]⟩
  · cases hs : selectCommunities cs env.sampleTape1 env.sampleTape2 with
    | error e => exact ⟨[], by simp [hemp, hs]⟩
    | ok sel =>
        exact ⟨(processCommunities env a N ⟨0, []⟩ sel).1, by simp [hemp, hs]⟩

theorem removeEscapes_cons_of_ne {c : Char} (hc : ¬c = '\\') :
    ∀ l : List Char, removeEscapes (c :: l) = c :: removeEscapes l
  | [] => rfl
  | d :: t => by
      simp only [removeEscapes]
      rw [if_neg (fun h => hc h.1)]

theorem noEsc_cons_of_ne {c : Char} (hc : ¬c = '\\') :
    ∀ (l : List Char), noEsc l → noEsc (c :: l)
  | [], _ => trivial
  | _ :: _, h => ⟨fun hh => hc hh.1, h⟩

theorem noEsc_removeEscapes : ∀ l : List Char, noEsc (removeEscapes l)
  | [] => trivial
  | [_] => trivial
  | c1 :: c2 :: rest => by
      by_cases h : c1 = '\\' ∧ c2 ≠ '\n'
      · simp only [removeEscapes, if_pos h]
        exact noEsc_removeEscapes rest
      · simp only [removeEscapes, if_neg h]
        by_cases hc1 : c1 = '\\'
        · have hc2 : c2 = '\n' := by
            by_contra hne
            exact h ⟨hc1, hne⟩
          subst hc2
          rw [removeEscapes_cons_of_ne (by decide) rest]
          exact ⟨fun hh => hh.2 rfl,
            noEsc_cons_of_ne (by decide) _ (noEsc_removeEscapes rest)⟩
        · exact noEsc_cons_of_ne hc1 _ (noEsc_removeEscapes (c2 :: rest))

theorem removeEscapes_of_noEsc : ∀ l : List Char, noEsc l → removeEscapes l = l
  | [], _ => rfl
  | [_], _ => rfl
  | c1 :: c2 :: rest, h => by
      obtain ⟨h1, h2⟩ := h
      simp only [removeEscapes, if_neg h1]
      rw [removeEscapes_of_noEsc (c2 :: rest) h2]

/-- C1: for a resolved budget `N ≥ 0`, an invocation of `query` yields at
most `N` records, and a traversal entered with the budget already exhausted
emits nothing — the check `yielded_items >= maximum_items_to_collect` guards
every candidate emission, so exhaustion stops emission mid-post-loop and
mid-comment-loop as soon as it is detected. -/
theorem query_budget_bound (params : ParamsInput) (env : Env)
    (a N l : Int) (out : List Item)
    (hp : read_parameters params = .ok (a, N, l)) (hN : 0 ≤ N)
    (hq : query params env = .ok out) :
    (out.length : Int) ≤ N ∧
      ∀ (maxOld : Int) (st : St) (cs : List Community),
        N ≤ (st.count : Int) →
          (processCommunities env maxOld N st cs).1 = [] := by
  constructor
  · rw [query_eq_of_read env hp] at hq
    rcases queryBody_ok_shape hq with h | ⟨sel, h⟩
    · subst h
      simpa using hN
    · subst h
      have hs := processCommunities_stepOK env a N sel ⟨0, []⟩
      have heq := hs.count_eq
      rcases le_max_iff.mp hs.count_le with h | h
      · omega
      · omega
  · intro maxOld st cs hst
    exact ((processCommunities_stepOK env maxOld N cs st).stop hst).1

/-- C1 witness: the `goodEnv` run with budget 100 emits one record, and a
traversal started with 100 already yielded emits none. -/
theorem query_budget_bound_witness :
    (([goodItem].length : Int) ≤ 100) ∧
      (processCommunities goodEnv 3600 100 ⟨100, []⟩ tenCommunities).1 = [] := by
  have h := query_budget_bound
    (ParamsInput.dict [("maximum_items_to_collect", 100)])
    goodEnv 3600 100 10 [goodItem] rfl (by decide) rfl
  exact ⟨h.1, h.2 3600 ⟨100, []⟩ tenCommunities (by decide)⟩

/-- C2: the external ids of all records yielded by one invocation are
pairwise distinct, and an id already recorded as seen when a traversal
starts is never carried by any record that traversal emits, across
communities. -/
theorem query_dedup (params : ParamsInput) (env : Env) (a N l : Int)
    (out : List Item)
    (hp : read_parameters params = .ok (a, N, l))
    (hq : query params env = .ok out) :
    (out.map Item.externalId).Nodup ∧
      ∀ (maxOld maxItems : Int) (st : St) (cs : List Community) (i : String),
        i ∈ st.idFound →
          ∀ r ∈ (processCommunities env maxOld maxItems st cs).1,
            r.externalId ≠ i := by
  constructor
  · rw [query_eq_of_read env hp] at hq
    rcases queryBody_ok_shape hq with h | ⟨sel, h⟩
    · subst h
      simp
    · subst h
      exact (processCommunities_stepOK env a N sel ⟨0, []⟩).nodup
  · intro maxOld maxItems st cs i hi r hr heq
    exact (processCommunities_stepOK env maxOld maxItems cs st).fresh_ids r hr
      (heq ▸ hi)

/-- C2 witness: the `goodEnv` run has pairwise distinct ids, and an id
pre-recorded as seen is not emitted. -/
theorem query_dedup_witness :
    ([goodItem].map Item.externalId).Nodup ∧ goodItem.externalId ≠ "w" := by
  have h := query_dedup (ParamsInput.dict [("maximum_items_to_collect", 100)])
    goodEnv 3600 100 10 [goodItem] rfl rfl
  refine ⟨h.1, ?_⟩
  exact h.2 3600 100 ⟨0, ["w"]⟩ tenCommunities "w" (by decide) goodItem (by decide)

/-- C3: every post-derived record yielded by `query` satisfies
`now - created_at < max_oldness_seconds` with the resolved window, and
`fetch_comments_for_post` only ever returns comments satisfying the same
predicate with the same window. -/
theorem query_freshness (params : ParamsInput) (env : Env) (a N l : Int)
    (out : List Item)
    (hp : read_parameters params = .ok (a, N, l))
    (hq : query params env = .ok out) :
    (∀ r ∈ out, r.externalParentId = none → env.now - r.createdAt < a) ∧
      ∀ (now mo : Int) (resp : HttpOutcome (List Comment))
        (cs : List Comment),
        fetch_comments_for_post now mo resp = .ok (some cs) →
          ∀ c ∈ cs, now - c.published < mo := by
  constructor
  · rw [query_eq_of_read env hp] at hq
    rcases queryBody_ok_shape hq with h | ⟨sel, h⟩
    · subst h
      simp
    · subst h
      exact (processCommunities_stepOK env a N sel ⟨0, []⟩).fresh_time
  · intro now mo resp cs h c hcm
    cases resp with
    | timeout => simp [fetch_comments_for_post] at h
    | success status body =>
        simp only [fetch_comments_for_post] at h
        by_cases hs : status = 200
        · rw [if_pos hs] at h
          have hcs : body.filter (fun c => now - c.published < mo) = cs :=
            Option.some.inj (Except.ok.inj h)
          rw [← hcs] at hcm
          exact of_decide_eq_true (List.mem_filter.mp hcm).2
        · rw [if_neg hs] at h
          exact absurd (Except.ok.inj h) (by simp)

/-- C3 witness: the emitted post record of the `goodEnv` run is fresh, and a
comment surviving the fetch filter is fresh. -/
theorem query_freshness_witness :
    (goodEnv.now - goodItem.createdAt < 3600) ∧
      ((0 : Int) - freshComment.published < 100) := by
  have h := query_freshness
    (ParamsInput.dict [("maximum_items_to_collect", 100)])
    goodEnv 3600 100 10 [goodItem] rfl rfl
  refine ⟨h.1 goodItem (by decide) rfl, ?_⟩
  exact h.2 0 100 (.success 200 [freshComment]) [freshComment] rfl
    freshComment (by decide)

/-- C4: the claim says `read_parameters` returns the three defaults
(3600, 100, 10) without failing when its input is empty, `None` or not a
mapping.  In the code the `else` branch assigns only `min_post_length`, so
the `return` raises `UnboundLocalError` on `max_oldness_seconds` for all
three such inputs: the docstring and the branch comment state the intent the
claim describes, the code is a slip. -/
theorem read_parameters_unbound_local :
    read_parameters ParamsInput.pyNone = .error () ∧
    read_parameters (ParamsInput.dict []) = .error () ∧
    read_parameters ParamsInput.nonDict = .error () :=
  ⟨rfl, rfl, rfl⟩

/-- C5 counterexample: on a five-entry community list the sampling step does
throw — `random.sample(communities, 10)` at line 217 raises `ValueError`
because the sample size exceeds the population. -/
theorem selectCommunities_errors_on_five :
    selectCommunities fiveCommunities [] [] = .error () := rfl

/-- C5 amended: for a fetched community list with fewer than 10 entries the
sampling step raises `ValueError`; the invocation-level handler catches it,
so `query` propagates no error and emits zero records (hence traverses no
community). -/
theorem small_list_sampling_caught (params : ParamsInput) (env : Env)
    (a N l : Int) (cs : List Community)
    (hp : read_parameters params = .ok (a, N, l))
    (hc : fetch_communities env.communitiesResp = .ok cs)
    (hlen : cs.length < LEMMY_NB_COMMUNITIES_TO_BROWSE) :
    query params env = .ok [] := by
  rw [query_eq_of_read env hp]
  simp only [queryBody, hc]
  have hsel : selectCommunities cs env.sampleTape1 env.sampleTape2 =
      .error () := by
    unfold selectCommunities randomSample
    rw [if_neg (Nat.not_le.mpr hlen)]
  by_cases hemp : cs = []
  · simp [hemp]
  · simp [hemp, hsel]

/-- C5 witness: the five-community environment yields zero records without
propagating the sampling error. -/
theorem small_list_sampling_caught_witness :
    query (ParamsInput.dict [("min_post_length", 10)]) fiveEnv = .ok [] :=
  small_list_sampling_caught _ fiveEnv 3600 100 10 fiveCommunities rfl rfl
    (by decide)

/-- C6: the claim says a non-2xx status or a timeout makes the fetch return
an empty sequence or `None` instead of propagating an error.  The non-200
part holds, but in each fetcher the `try` has a `finally` and no `except`, so the
timeout exception propagates to the caller — contradicting the docstrings
("or None if an error occurred"). -/
theorem remote_client_timeout_propagates :
    fetch_communities (HttpOutcome.timeout) = .error () ∧
    fetch_new_posts_from_community .timeout = .error () ∧
    fetch_comments_for_post 0 3600 .timeout = .error () :=
  ⟨rfl, rfl, rfl⟩

/-- C7 counterexample: a timeout during the initial community-list fetch of
line 213 — which sits outside the `try` — propagates out of `query` instead
of being caught, refuting "never propagates to the caller". -/
theorem query_initial_fetch_error_propagates :
    query (ParamsInput.dict [("maximum_items_to_collect", 5)]) timeoutEnv =
      .error () := rfl

/-- C7 amended: once the parameters resolve and the initial community-list
fetch succeeds, every exception raised during the browse/fetch sequence is
caught by the invocation-level handler and the generator ends gracefully
(the records already yielded are its output); only an exception during the
initial fetch itself propagates to the caller. -/
theorem query_graceful_after_initial_fetch (params : ParamsInput) (env : Env)
    (a N l : Int) (cs : List Community)
    (hp : read_parameters params = .ok (a, N, l))
    (hc : fetch_communities env.communitiesResp = .ok cs) :
    isOkResult (query params env) = true := by
  rw [query_eq_of_read env hp]
  obtain ⟨out, h⟩ := queryBody_ok_of_comms (a := a) (N := N) hc
  rw [h]
  rfl

/-- C7 witness: the `goodEnv` run ends without a propagated exception. -/
theorem query_graceful_after_initial_fetch_witness :
    isOkResult
      (query (ParamsInput.dict [("maximum_items_to_collect", 100)]) goodEnv) =
      true :=
  query_graceful_after_initial_fetch _ goodEnv 3600 100 10 tenCommunities
    rfl rfl

/-- C8: `sanitize_text` is idempotent, because its output contains no
remaining match of `escape_character_pattern` (a backslash followed by a
character — `.` matching anything but a newline). -/
theorem sanitize_text_idempotent (t : String) :
    sanitize_text (sanitize_text t) = sanitize_text t ∧
      noEsc (sanitize_text t).data := by
  refine ⟨?_, noEsc_removeEscapes t.data⟩
  show String.mk (removeEscapes (removeEscapes t.data)) =
    String.mk (removeEscapes t.data)
  rw [removeEscapes_of_noEsc _ (noEsc_removeEscapes t.data)]

/-- C9: `min_post_length` is accepted but never enforced — two parameter
dicts agreeing on the other two keys (in particular, differing only in
`min_post_length`) produce identical outputs against the same environment
(same responses, same random tape). -/
theorem min_post_length_not_enforced (env : Env)
    (l1 l2 : List (String × Int)) (h1 : l1 ≠ []) (h2 : l2 ≠ [])
    (hmo : lookupParam l1 "max_oldness_seconds" DEFAULT_OLDNESS_SECONDS =
           lookupParam l2 "max_oldness_seconds" DEFAULT_OLDNESS_SECONDS)
    (hmi : lookupParam l1 "maximum_items_to_collect" DEFAULT_MAXIMUM_ITEMS =
           lookupParam l2 "maximum_items_to_collect" DEFAULT_MAXIMUM_ITEMS) :
    query (ParamsInput.dict l1) env = query (ParamsInput.dict l2) env := by
  have e1 : read_parameters (ParamsInput.dict l1) =
      .ok (lookupParam l1 "max_oldness_seconds" DEFAULT_OLDNESS_SECONDS,
           lookupParam l1 "maximum_items_to_collect" DEFAULT_MAXIMUM_ITEMS,
           lookupParam l1 "min_post_length" DEFAULT_MIN_POST_LENGTH) := by
    simp only [read_parameters]
    rw [if_neg h1]
  have e2 : read_parameters (ParamsInput.dict l2) =
      .ok (lookupParam l2 "max_oldness_seconds" DEFAULT_OLDNESS_SECONDS,
           lookupParam l2 "maximum_items_to_collect" DEFAULT_MAXIMUM_ITEMS,
           lookupParam l2 "min_post_length" DEFAULT_MIN_POST_LENGTH) := by
    simp only [read_parameters]
    rw [if_neg h2]
  rw [query_eq_of_read env e1, query_eq_of_read env e2, hmo, hmi]

/-- C9 witness: two dicts differing only in `min_post_length` give the same
run against `goodEnv`. -/
theorem min_post_length_not_enforced_witness :
    query (ParamsInput.dict [("min_post_length", 1)]) goodEnv =
      query (ParamsInput.dict [("min_post_length", 50)]) goodEnv :=
  min_post_length_not_enforced goodEnv _ _ (by decide) (by decide) rfl rfl

/-- C10: a non-positive resolved budget makes the check
`yielded_items >= maximum_items_to_collect` fire before the first candidate
emission, so the invocation yields zero records and ends without error
(whenever the pre-`try` community-list fetch itself returned). -/
theorem nonpositive_budget_yields_nothing (params : ParamsInput) (env : Env)
    (a N l : Int) (cs : List Community)
    (hp : read_parameters params = .ok (a, N, l)) (hN : N ≤ 0)
    (hc : fetch_communities env.communitiesResp = .ok cs) :
    query params env = .ok [] := by
  rw [query_eq_of_read env hp]
  simp only [queryBody, hc]
  by_cases hemp : cs = []
  · simp [hemp]
  · simp only [if_neg hemp]
    cases hs : selectCommunities cs env.sampleTape1 env.sampleTape2 with
    | error e => rfl
    | ok sel =>
        have hz := ((processCommunities_stepOK env a N sel ⟨0, []⟩).stop
          (by show N ≤ ((0 : Nat) : Int); simpa using hN)).1
        simp [hz]

/-- C10 witness: budget 0 against `goodEnv` yields no records. -/
theorem nonpositive_budget_yields_nothing_witness :
    query (ParamsInput.dict [("maximum_items_to_collect", 0)]) goodEnv =
      .ok [] :=
  nonpositive_budget_yields_nothing _ goodEnv 3600 0 10 tenCommunities rfl
    (by decide) rfl

end Lemmy
